import Mathlib

/-!
# CraftsMark session timer: a shallow embedding of `src/App.js`

The React component `App` keeps five pieces of state (`isRecording`, `duration`,
`taps`, `sessions`, `clickEffects`) and reacts to discrete events: a click on the
record button (`toggleRecording`), a click anywhere on the screen
(`handleScreenTap`), a click on a card's delete button (`deleteSession`), the
firing of the one-second interval created by `useEffect`, and the firing of a
600 ms click-effect timeout.

Modelling conventions.
* Every handler runs against the state of the latest render; React re-renders
  and re-runs the effect whose dependency `isRecording` changed before the next
  event is handled. One event is therefore one atomic transition `step`.
* The counters are natural numbers (JavaScript numbers are exact on the
  integers the counters range over).
* The values read from the platform (`Date.now()`, the locale date string, the
  pointer coordinates) are inputs of the event.
* The platform resources touched by the code are explicit fields of the state:
  the live `setInterval` handles, the pending `setTimeout` callbacks and the log
  of `navigator.vibrate` calls.
-/

namespace CraftsMark

/-! ## Data model -/

/-- A finished session, the object literal built in `toggleRecording`. -/
structure Session where
  id : Nat
  date : String
  duration : Nat
  taps : Nat
  type : String
  deriving DecidableEq, Repr

/-- A transient click marker, `{ id, x, y }` in `handleScreenTap`. -/
structure ClickEffect where
  id : Nat
  x : Int
  y : Int
  deriving DecidableEq, Repr

/-- The state of `App` together with the platform resources it owns. -/
structure State where
  /-- `useState(false)` -/
  isRecording : Bool
  /-- `useState(0)` -/
  duration : Nat
  /-- `useState(0)` -/
  taps : Nat
  /-- `useState([...])`, newest first -/
  sessions : List Session
  /-- `useState([])` -/
  clickEffects : List ClickEffect
  /-- handles of the intervals created by `setInterval` and not yet cleared -/
  intervals : List Nat
  /-- the variable `interval` captured by the cleanup of the last effect run
  (`none` is JavaScript `undefined`) -/
  interval : Option Nat
  /-- the handle the next `setInterval` call returns -/
  nextHandle : Nat
  /-- effect ids captured by the pending `setTimeout` callbacks, oldest first -/
  timeouts : List Nat
  /-- whether `navigator.vibrate` exists -/
  canVibrate : Bool
  /-- the patterns passed to `navigator.vibrate`, oldest first -/
  haptics : List (List Nat)
  deriving DecidableEq, Repr

/-- The two seeded sessions of `useState([...])` at lines 283-286. -/
def sessionA : Session :=
  { id := 1, date := "2026.05.20", duration := 5400, taps := 124, type := "木工" }

/-- The second seeded session. -/
def sessionB : Session :=
  { id := 2, date := "2026.05.19", duration := 3200, taps := 89, type := "皮艺" }

/-- The state after the first render and the first run of the effect:
`isRecording` is false, so the effect body creates no interval and `interval`
stays undefined. -/
def initialState (vib : Bool) : State :=
  { isRecording := false
    duration := 0
    taps := 0
    sessions := [sessionA, sessionB]
    clickEffects := []
    intervals := []
    interval := none
    nextHandle := 1
    timeouts := []
    canVibrate := vib
    haptics := [] }

/-! ## Handlers -/

/-- `triggerHaptic(pattern)`: `if (navigator.vibrate) navigator.vibrate(pattern)`. -/
def triggerHaptic (pattern : List Nat) (s : State) : State :=
  if s.canVibrate then { s with haptics := s.haptics ++ [pattern] } else s

/-- The default label written into every new session. -/
def defaultType : String := "新工艺"

/-- The global replace at line 343: every dash becomes a dot. -/
def replaceDashes (str : String) : String :=
  str.map (fun c => if c = '-' then '.' else c)

/-- `toggleRecording`, lines 337-357. `now` is the value of `Date.now()` and
`localeDate` the value of `new Date().toLocaleDateString('en-CA')`; both are
read by the stop branch only. `e.stopPropagation()` keeps the click away from
`handleScreenTap`, so a toggle is not also a tap. -/
def toggleRecording (now : Nat) (localeDate : String) (s : State) : State :=
  if s.isRecording then
    let newSession : Session :=
      { id := now
        date := replaceDashes localeDate
        duration := s.duration
        taps := s.taps
        type := defaultType }
    let s1 := { s with sessions := newSession :: s.sessions }
    let s2 := { s1 with duration := 0 }
    let s3 := { s2 with taps := 0 }
    let s4 := triggerHaptic [30, 50, 30] s3
    { s4 with isRecording := !s.isRecording }
  else
    let s1 := triggerHaptic [15] s
    { s1 with isRecording := !s.isRecording }

/-- `handleScreenTap`, lines 360-378. `x`, `y` are `e.clientX`, `e.clientY` and
`now` is `Date.now()`. The `setTimeout` call is recorded as a pending timeout
holding the captured `id`. -/
def handleScreenTap (x y : Int) (now : Nat) (s : State) : State :=
  if !s.isRecording then s
  else
    let s1 := { s with taps := s.taps + 1 }
    let s2 := triggerHaptic [5] s1
    let id := now
    let effect : ClickEffect := { id := id, x := x, y := y }
    let s3 := { s2 with clickEffects := s2.clickEffects ++ [effect] }
    { s3 with timeouts := s3.timeouts ++ [id] }

/-- The callback handed to `setTimeout` at lines 375-377, run with the captured `id`. -/
def expireEffect (id : Nat) (s : State) : State :=
  { s with clickEffects := s.clickEffects.filter (fun effect => effect.id ≠ id) }

/-- `deleteSession`, lines 380-382. -/
def deleteSession (id : Nat) (s : State) : State :=
  { s with sessions := s.sessions.filter (fun x => x.id ≠ id) }

/-- The callback handed to `setInterval` at lines 303-305:
`setDuration(prev => prev + 1)`. -/
def tickCallback (s : State) : State :=
  { s with duration := s.duration + 1 }

/-! ## The effect of lines 292-312 -/

/-- `clearInterval(h)`: a handle that is not live is ignored. -/
def clearInterval (h : Option Nat) (s : State) : State :=
  match h with
  | none => s
  | some k => { s with intervals := s.intervals.filter (fun j => j ≠ k) }

/-- The cleanup returned by the effect: `clearInterval(interval)`. -/
def effectCleanup (s : State) : State :=
  clearInterval s.interval s

/-- The body of the effect: `let interval; if (isRecording) interval = setInterval(...)`. -/
def effectBody (s : State) : State :=
  if s.isRecording then
    { s with intervals := s.intervals ++ [s.nextHandle]
             interval := some s.nextHandle
             nextHandle := s.nextHandle + 1 }
  else
    { s with interval := none }

/-- The re-render after a handler: the dependency array is `[isRecording]`, so
when `isRecording` differs from the previous render the previous cleanup runs
and then the effect body; otherwise the effect is left alone. -/
def commit (old new : State) : State :=
  if old.isRecording ≠ new.isRecording then effectBody (effectCleanup new) else new

/-- One second elapses: every live interval fires its callback once. -/
def fireIntervals (s : State) : State :=
  s.intervals.foldl (fun acc _ => tickCallback acc) s

/-- The oldest pending timeout fires. -/
def fireTimeout (s : State) : State :=
  match s.timeouts with
  | [] => s
  | id :: rest => expireEffect id { s with timeouts := rest }

/-! ## Events and runs -/

/-- The events the component reacts to. -/
inductive Event where
  /-- a click on the record button -/
  | toggle (now : Nat) (localeDate : String)
  /-- a click that reaches the root element -/
  | tap (x y : Int) (now : Nat)
  /-- one second of wall-clock time -/
  | tick
  /-- a call of `deleteSession` from the delete button of the card with this id
  (the same click then reaches the root element and is a `tap` of its own) -/
  | delete (id : Nat)
  /-- the oldest click-effect timeout elapses -/
  | expire
  deriving DecidableEq, Repr

/-- One event, followed by the re-render. -/
def step (s : State) : Event → State
  | .toggle now localeDate => commit s (toggleRecording now localeDate s)
  | .tap x y now => commit s (handleScreenTap x y now s)
  | .tick => commit s (fireIntervals s)
  | .delete id => commit s (deleteSession id s)
  | .expire => commit s (fireTimeout s)

/-- A sequence of events, oldest first. -/
def run (s : State) (evs : List Event) : State :=
  evs.foldl step s

/-- Whether an event is a click on the record button. -/
def Event.isToggle : Event → Bool
  | .toggle _ _ => true
  | _ => false

/-- Number of one-second ticks in a sequence of events. -/
def countTicks (evs : List Event) : Nat :=
  evs.countP (fun e => e = Event.tick)

/-- Number of screen taps in a sequence of events. -/
def countTaps (evs : List Event) : Nat :=
  evs.countP (fun e => match e with | .tap _ _ _ => true | _ => false)

/-! ## Card rendering: `formatTime` -/

/-- `str.padStart(2, '0')`: a string of two or more characters is returned as
is, a shorter one receives the missing zeros in front. -/
def padStart2 (str : String) : String :=
  if 2 ≤ str.length then str
  else String.mk (List.replicate (2 - str.length) '0') ++ str

/-- `formatTime` of `CrystalCard`, lines 169-174; `Math.floor(a / b)` on
non-negative integers is natural-number division and `toString()` is the
decimal representation. -/
def formatTime (seconds : Nat) : String :=
  let h := padStart2 (toString (seconds / 3600))
  let m := padStart2 (toString ((seconds % 3600) / 60))
  let s := padStart2 (toString (seconds % 60))
  h ++ ":" ++ m ++ ":" ++ s

/-! ## Vocabulary of the properties -/

/-- The state invariant linking the interval to `isRecording`: while recording
exactly one interval is live and it is the one the cleanup will clear; while
idle no interval is live and both counters are zero. -/
def Inv (s : State) : Prop :=
  (s.isRecording = true → ∃ h, s.intervals = [h] ∧ s.interval = some h) ∧
  (s.isRecording = false → s.intervals = [] ∧ s.duration = 0 ∧ s.taps = 0)

/-- The ids of the stored sessions, in store order. -/
def sessionIds (s : State) : List Nat :=
  s.sessions.map Session.id

/-- Whether every clock value read by a stop differs from the ids that are in
the store at that moment. -/
def freshClocks (s : State) : List Event → Bool
  | [] => true
  | e :: evs =>
    (match e with
      | .toggle now _ => !s.isRecording || !(sessionIds s).contains now
      | _ => true) && freshClocks (step s e) evs

/-- The event of a tap described by its coordinates and clock value. -/
def tapEvent (t : Int × Int × Nat) : Event :=
  Event.tap t.1 t.2.1 t.2.2

/-- The click effect a tap enqueues. -/
def tapEffect (t : Int × Int × Nat) : ClickEffect :=
  { id := t.2.2, x := t.1, y := t.2.1 }

/-- The fields of a text, cut at every colon. -/
def splitColon : List Char → List (List Char)
  | [] => [[]]
  | c :: cs =>
    if c = ':' then [] :: splitColon cs
    else
      match splitColon cs with
      | [] => [[c]]
      | f :: fs => (c :: f) :: fs

/-- The number a run of decimal digits denotes. -/
def decimalValue (cs : List Char) : Nat :=
  cs.foldl (fun acc c => 10 * acc + (c.toNat - '0'.toNat)) 0

/-- A field of decimal digits, at least two of them. -/
def isPaddedField (cs : List Char) : Bool :=
  decide (2 ≤ cs.length) && cs.all Char.isDigit

/-- Reading back a text of three colon-separated fields as seconds. -/
def parseTime (str : String) : Nat :=
  match splitColon str.data with
  | [fh, fm, fs] => 3600 * decimalValue fh + 60 * decimalValue fm + decimalValue fs
  | _ => 0

/-! ## Basic facts about the handlers -/

theorem commit_same (old new : State) (h : old.isRecording = new.isRecording) :
    commit old new = new := by
  simp [commit, h]

@[simp]
theorem triggerHaptic_isRecording (p : List Nat) (s : State) :
    (triggerHaptic p s).isRecording = s.isRecording := by
  unfold triggerHaptic
  split <;> rfl

@[simp]
theorem triggerHaptic_duration (p : List Nat) (s : State) :
    (triggerHaptic p s).duration = s.duration := by
  unfold triggerHaptic
  split <;> rfl

@[simp]
theorem triggerHaptic_taps (p : List Nat) (s : State) :
    (triggerHaptic p s).taps = s.taps := by
  unfold triggerHaptic
  split <;> rfl

@[simp]
theorem triggerHaptic_sessions (p : List Nat) (s : State) :
    (triggerHaptic p s).sessions = s.sessions := by
  unfold triggerHaptic
  split <;> rfl

@[simp]
theorem triggerHaptic_clickEffects (p : List Nat) (s : State) :
    (triggerHaptic p s).clickEffects = s.clickEffects := by
  unfold triggerHaptic
  split <;> rfl

@[simp]
theorem triggerHaptic_intervals (p : List Nat) (s : State) :
    (triggerHaptic p s).intervals = s.intervals := by
  unfold triggerHaptic
  split <;> rfl

@[simp]
theorem triggerHaptic_interval (p : List Nat) (s : State) :
    (triggerHaptic p s).interval = s.interval := by
  unfold triggerHaptic
  split <;> rfl

@[simp]
theorem triggerHaptic_nextHandle (p : List Nat) (s : State) :
    (triggerHaptic p s).nextHandle = s.nextHandle := by
  unfold triggerHaptic
  split <;> rfl

@[simp]
theorem triggerHaptic_timeouts (p : List Nat) (s : State) :
    (triggerHaptic p s).timeouts = s.timeouts := by
  unfold triggerHaptic
  split <;> rfl

@[simp]
theorem triggerHaptic_canVibrate (p : List Nat) (s : State) :
    (triggerHaptic p s).canVibrate = s.canVibrate := by
  unfold triggerHaptic
  split <;> rfl

theorem step_tap_recording (s : State) (x y : Int) (now : Nat) (h : s.isRecording = true) :
    step s (.tap x y now) = handleScreenTap x y now s := by
  simp only [step]
  apply commit_same
  simp [handleScreenTap, h]

theorem step_tap_idle (s : State) (x y : Int) (now : Nat) (h : s.isRecording = false) :
    step s (.tap x y now) = s := by
  simp [step, handleScreenTap, h, commit]

theorem step_delete (s : State) (id : Nat) :
    step s (.delete id) = deleteSession id s := by
  simp [step, deleteSession, commit]

theorem step_expire (s : State) :
    step s .expire = fireTimeout s := by
  simp only [step]
  apply commit_same
  unfold fireTimeout
  split <;> simp [expireEffect]

theorem run_nil (s : State) : run s [] = s := rfl

theorem run_cons (s : State) (e : Event) (evs : List Event) :
    run s (e :: evs) = run (step s e) evs := rfl

theorem run_append (s : State) (xs ys : List Event) :
    run s (xs ++ ys) = run (run s xs) ys := by
  simp [run, List.foldl_append]

/-! ## The re-render touches only the interval bookkeeping -/

@[simp]
theorem commit_isRecording (old new : State) :
    (commit old new).isRecording = new.isRecording := by
  unfold commit effectBody effectCleanup clearInterval
  split
  · split <;> split <;> rfl
  · rfl

@[simp]
theorem commit_duration (old new : State) :
    (commit old new).duration = new.duration := by
  unfold commit effectBody effectCleanup clearInterval
  split
  · split <;> split <;> rfl
  · rfl

@[simp]
theorem commit_taps (old new : State) :
    (commit old new).taps = new.taps := by
  unfold commit effectBody effectCleanup clearInterval
  split
  · split <;> split <;> rfl
  · rfl

@[simp]
theorem commit_sessions (old new : State) :
    (commit old new).sessions = new.sessions := by
  unfold commit effectBody effectCleanup clearInterval
  split
  · split <;> split <;> rfl
  · rfl

@[simp]
theorem commit_clickEffects (old new : State) :
    (commit old new).clickEffects = new.clickEffects := by
  unfold commit effectBody effectCleanup clearInterval
  split
  · split <;> split <;> rfl
  · rfl

@[simp]
theorem commit_timeouts (old new : State) :
    (commit old new).timeouts = new.timeouts := by
  unfold commit effectBody effectCleanup clearInterval
  split
  · split <;> split <;> rfl
  · rfl

@[simp]
theorem commit_canVibrate (old new : State) :
    (commit old new).canVibrate = new.canVibrate := by
  unfold commit effectBody effectCleanup clearInterval
  split
  · split <;> split <;> rfl
  · rfl

@[simp]
theorem commit_haptics (old new : State) :
    (commit old new).haptics = new.haptics := by
  unfold commit effectBody effectCleanup clearInterval
  split
  · split <;> split <;> rfl
  · rfl

/-! ## Stopping and starting -/

/-- C1: from any state with `isRecording = true`, `toggleRecording` puts exactly
one new session in front of the unchanged session list, carrying the live
`duration` and `taps` and the default label, and leaves `duration = 0`,
`taps = 0`, `isRecording = false`; the re-render that follows changes none of
these. -/
theorem toggleRecording_stop_prepends (s : State) (now : Nat) (localeDate : String)
    (h : s.isRecording = true) :
    (toggleRecording now localeDate s).sessions =
        { id := now, date := replaceDashes localeDate, duration := s.duration,
          taps := s.taps, type := "新工艺" } :: s.sessions ∧
      (toggleRecording now localeDate s).duration = 0 ∧
      (toggleRecording now localeDate s).taps = 0 ∧
      (toggleRecording now localeDate s).isRecording = false ∧
      (step s (.toggle now localeDate)).sessions =
        { id := now, date := replaceDashes localeDate, duration := s.duration,
          taps := s.taps, type := "新工艺" } :: s.sessions ∧
      (step s (.toggle now localeDate)).duration = 0 ∧
      (step s (.toggle now localeDate)).taps = 0 ∧
      (step s (.toggle now localeDate)).isRecording = false := by
  simp [step, toggleRecording, h, defaultType]

theorem toggleRecording_stop_prepends_witness :
    ({ initialState true with isRecording := true, duration := 10, taps := 3 } : State).isRecording
        = true ∧
    (toggleRecording 1780000000000 "2026-05-21"
        { initialState true with isRecording := true, duration := 10, taps := 3 }).sessions =
      [{ id := 1780000000000, date := replaceDashes "2026-05-21", duration := 10, taps := 3,
         type := "新工艺" }, sessionA, sessionB] :=
  ⟨rfl, (toggleRecording_stop_prepends
    { initialState true with isRecording := true, duration := 10, taps := 3 }
    1780000000000 "2026-05-21" rfl).1⟩

/-! ## The interval invariant -/

theorem inv_initialState (vib : Bool) : Inv (initialState vib) := by
  simp [Inv, initialState]

theorem fireIntervals_recording (s : State) (hs : Inv s) (h : s.isRecording = true) :
    fireIntervals s = tickCallback s := by
  obtain ⟨k, hk, _⟩ := hs.1 h
  simp [fireIntervals, hk]

theorem fireIntervals_idle (s : State) (hs : Inv s) (h : s.isRecording = false) :
    fireIntervals s = s := by
  simp [fireIntervals, (hs.2 h).1]

theorem step_tick_recording (s : State) (hs : Inv s) (h : s.isRecording = true) :
    step s .tick = tickCallback s := by
  simp only [step, fireIntervals_recording s hs h]
  apply commit_same
  rfl

theorem step_tick_idle (s : State) (hs : Inv s) (h : s.isRecording = false) :
    step s .tick = s := by
  simp only [step, fireIntervals_idle s hs h]
  apply commit_same
  rfl

theorem inv_toggle (s : State) (now : Nat) (localeDate : String) (hs : Inv s) :
    Inv (step s (.toggle now localeDate)) := by
  cases h : s.isRecording
  · obtain ⟨hi, _, _⟩ := hs.2 h
    simp [Inv, step, toggleRecording, commit, effectBody, effectCleanup, clearInterval, h, hi]
    cases s.interval <;> simp
  · obtain ⟨k, hk, hk2⟩ := hs.1 h
    simp [Inv, step, toggleRecording, commit, effectBody, effectCleanup, clearInterval, h, hk,
      hk2]

theorem inv_step (s : State) (e : Event) (hs : Inv s) : Inv (step s e) := by
  cases e with
  | toggle now localeDate => exact inv_toggle s now localeDate hs
  | tap x y now =>
    cases h : s.isRecording
    · rw [step_tap_idle s x y now h]; exact hs
    · rw [step_tap_recording s x y now h]
      obtain ⟨k, hk, hk2⟩ := hs.1 h
      simp [Inv, handleScreenTap, h, hk, hk2]
  | tick =>
    cases h : s.isRecording
    · rw [step_tick_idle s hs h]; exact hs
    · rw [step_tick_recording s hs h]
      obtain ⟨k, hk, hk2⟩ := hs.1 h
      simp [Inv, tickCallback, h, hk, hk2]
  | delete id =>
    rw [step_delete]
    exact hs
  | expire =>
    rw [step_expire]
    unfold fireTimeout
    split
    · exact hs
    · exact hs

theorem inv_run (evs : List Event) (s : State) (hs : Inv s) : Inv (run s evs) := by
  induction evs generalizing s with
  | nil => exact hs
  | cons e evs ih => exact ih (step s e) (inv_step s e hs)

theorem inv_reachable (vib : Bool) (evs : List Event) : Inv (run (initialState vib) evs) :=
  inv_run evs _ (inv_initialState vib)

theorem toggleRecording_idle (s : State) (now : Nat) (localeDate : String)
    (h : s.isRecording = false) :
    (toggleRecording now localeDate s).isRecording = true ∧
      (toggleRecording now localeDate s).duration = s.duration ∧
      (toggleRecording now localeDate s).taps = s.taps ∧
      (toggleRecording now localeDate s).sessions = s.sessions := by
  simp [toggleRecording, h]

/-- C3: starting a session always gives `duration = 0` and `taps = 0`, whatever
the earlier sessions did. For every state the component reaches from its
initial state by any sequence of events (earlier sessions with any number of
ticks and taps included) and in which `isRecording = false`, `toggleRecording`
yields `isRecording = true`, `duration = 0` and `taps = 0`, and so does the
whole click, re-render included. -/
theorem toggleRecording_start_reachable (vib : Bool) (evs : List Event) (now : Nat)
    (localeDate : String) (h : (run (initialState vib) evs).isRecording = false) :
    (toggleRecording now localeDate (run (initialState vib) evs)).isRecording = true ∧
      (toggleRecording now localeDate (run (initialState vib) evs)).duration = 0 ∧
      (toggleRecording now localeDate (run (initialState vib) evs)).taps = 0 ∧
      (step (run (initialState vib) evs) (.toggle now localeDate)).isRecording = true ∧
      (step (run (initialState vib) evs) (.toggle now localeDate)).duration = 0 ∧
      (step (run (initialState vib) evs) (.toggle now localeDate)).taps = 0 := by
  have hi := toggleRecording_idle (run (initialState vib) evs) now localeDate h
  obtain ⟨_, hd, ht⟩ := (inv_reachable vib evs).2 h
  simp only [step, commit_isRecording, commit_duration, commit_taps]
  rw [hi.1, hi.2.1, hi.2.2.1, hd, ht]
  simp

theorem toggleRecording_start_reachable_witness :
    (run (initialState true)
        [.toggle 1780000000000 "2026-05-21", .tap 10 20 1780000001000, .tick, .tick,
         .toggle 1780000002000 "2026-05-21"]).isRecording = false ∧
    (toggleRecording 1780000003000 "2026-05-21"
      (run (initialState true)
        [.toggle 1780000000000 "2026-05-21", .tap 10 20 1780000001000, .tick, .tick,
         .toggle 1780000002000 "2026-05-21"])).isRecording = true ∧
    (toggleRecording 1780000003000 "2026-05-21"
      (run (initialState true)
        [.toggle 1780000000000 "2026-05-21", .tap 10 20 1780000001000, .tick, .tick,
         .toggle 1780000002000 "2026-05-21"])).duration = 0 ∧
    (toggleRecording 1780000003000 "2026-05-21"
      (run (initialState true)
        [.toggle 1780000000000 "2026-05-21", .tap 10 20 1780000001000, .tick, .tick,
         .toggle 1780000002000 "2026-05-21"])).taps = 0 :=
  ⟨rfl,
    (toggleRecording_start_reachable true
      [.toggle 1780000000000 "2026-05-21", .tap 10 20 1780000001000, .tick, .tick,
       .toggle 1780000002000 "2026-05-21"] 1780000003000 "2026-05-21" rfl).1,
    (toggleRecording_start_reachable true
      [.toggle 1780000000000 "2026-05-21", .tap 10 20 1780000001000, .tick, .tick,
       .toggle 1780000002000 "2026-05-21"] 1780000003000 "2026-05-21" rfl).2.1,
    (toggleRecording_start_reachable true
      [.toggle 1780000000000 "2026-05-21", .tap 10 20 1780000001000, .tick, .tick,
       .toggle 1780000002000 "2026-05-21"] 1780000003000 "2026-05-21" rfl).2.2.1⟩

/-- C9: in every state reached from the initial state by toggle, tap, tick,
delete (and effect-timeout) events, `isRecording = false` implies
`duration = 0` and `taps = 0`; the start branch of `toggleRecording` copies both
counters unchanged. -/
theorem idle_counters_zero (vib : Bool) (evs : List Event)
    (h : (run (initialState vib) evs).isRecording = false) :
    (run (initialState vib) evs).duration = 0 ∧ (run (initialState vib) evs).taps = 0 ∧
      ∀ (s : State) (now : Nat) (localeDate : String), s.isRecording = false →
        (toggleRecording now localeDate s).duration = s.duration ∧
        (toggleRecording now localeDate s).taps = s.taps := by
  obtain ⟨_, hd, ht⟩ := (inv_reachable vib evs).2 h
  refine ⟨hd, ht, ?_⟩
  intro s now localeDate hs
  exact ⟨(toggleRecording_idle s now localeDate hs).2.1,
    (toggleRecording_idle s now localeDate hs).2.2.1⟩

theorem idle_counters_zero_witness :
    (run (initialState false)
        [.toggle 1780000000000 "2026-05-21", .tick, .tap 3 4 1780000001500, .tick, .delete 2,
         .toggle 1780000002000 "2026-05-21", .tick, .tap 5 6 1780000003000]).isRecording = false ∧
    (run (initialState false)
        [.toggle 1780000000000 "2026-05-21", .tick, .tap 3 4 1780000001500, .tick, .delete 2,
         .toggle 1780000002000 "2026-05-21", .tick, .tap 5 6 1780000003000]).duration = 0 ∧
    (run (initialState false)
        [.toggle 1780000000000 "2026-05-21", .tick, .tap 3 4 1780000001500, .tick, .delete 2,
         .toggle 1780000002000 "2026-05-21", .tick, .tap 5 6 1780000003000]).taps = 0 :=
  ⟨rfl,
    (idle_counters_zero false
      [.toggle 1780000000000 "2026-05-21", .tick, .tap 3 4 1780000001500, .tick, .delete 2,
       .toggle 1780000002000 "2026-05-21", .tick, .tap 5 6 1780000003000] rfl).1,
    (idle_counters_zero false
      [.toggle 1780000000000 "2026-05-21", .tick, .tap 3 4 1780000001500, .tick, .delete 2,
       .toggle 1780000002000 "2026-05-21", .tick, .tap 5 6 1780000003000] rfl).2.1⟩

/-! ## The one-second tick -/

/-- C8: the interval callback adds exactly 1 to `duration` and leaves `taps`,
`isRecording` and the session list alone; in every state reached from the
initial state a live interval exists exactly when `isRecording` is true, at
most one interval is live, a tick while idle changes nothing, a tick while
recording is one run of the callback, and a toggle leaves no interval when it
stops and only the freshly created one when it starts. -/
theorem tick_only_while_recording (vib : Bool) (evs : List Event) :
    (∀ s : State, (tickCallback s).duration = s.duration + 1 ∧
        (tickCallback s).taps = s.taps ∧
        (tickCallback s).isRecording = s.isRecording ∧
        (tickCallback s).sessions = s.sessions) ∧
      ((run (initialState vib) evs).intervals ≠ [] ↔
        (run (initialState vib) evs).isRecording = true) ∧
      (run (initialState vib) evs).intervals.length ≤ 1 ∧
      step (run (initialState vib) evs) .tick =
        (if (run (initialState vib) evs).isRecording then
          tickCallback (run (initialState vib) evs)
        else run (initialState vib) evs) ∧
      ∀ (now : Nat) (localeDate : String),
        (step (run (initialState vib) evs) (.toggle now localeDate)).intervals =
          if (run (initialState vib) evs).isRecording then []
          else [(run (initialState vib) evs).nextHandle] := by
  have hs := inv_reachable vib evs
  generalize run (initialState vib) evs = s at hs
  refine ⟨fun s => ⟨rfl, rfl, rfl, rfl⟩, ?_, ?_, ?_, ?_⟩
  · cases h : s.isRecording
    · simp [(hs.2 h).1]
    · obtain ⟨k, hk, _⟩ := hs.1 h
      simp [hk]
  · cases h : s.isRecording
    · simp [(hs.2 h).1]
    · obtain ⟨k, hk, _⟩ := hs.1 h
      simp [hk]
  · cases h : s.isRecording
    · simp [step_tick_idle s hs h]
    · simp [step_tick_recording s hs h]
  · intro now localeDate
    cases h : s.isRecording
    · obtain ⟨hi, _, _⟩ := hs.2 h
      simp [step, toggleRecording, commit, effectBody, effectCleanup, clearInterval, h, hi]
      cases s.interval <;> simp [hi]
    · obtain ⟨k, hk, hk2⟩ := hs.1 h
      simp [step, toggleRecording, commit, effectBody, effectCleanup, clearInterval, h, hk, hk2]

/-! ## Screen taps -/

theorem run_taps_recording (ts : List (Int × Int × Nat)) (s : State)
    (h : s.isRecording = true) :
    (run s (ts.map tapEvent)).taps = s.taps + ts.length ∧
      (run s (ts.map tapEvent)).clickEffects = s.clickEffects ++ ts.map tapEffect ∧
      (run s (ts.map tapEvent)).duration = s.duration ∧
      (run s (ts.map tapEvent)).isRecording = s.isRecording ∧
      (run s (ts.map tapEvent)).sessions = s.sessions := by
  induction ts generalizing s with
  | nil => simp [run_nil]
  | cons t ts ih =>
    have hstep : step s (tapEvent t) = handleScreenTap t.1 t.2.1 t.2.2 s :=
      step_tap_recording s t.1 t.2.1 t.2.2 h
    have hrec : (handleScreenTap t.1 t.2.1 t.2.2 s).isRecording = true := by
      simp [handleScreenTap, h]
    have := ih (handleScreenTap t.1 t.2.1 t.2.2 s) hrec
    simp only [List.map_cons, run_cons, hstep]
    rw [this.1, this.2.1, this.2.2.1, this.2.2.2.1, this.2.2.2.2]
    simp [handleScreenTap, h, tapEffect]
    omega

/-- C4: while `isRecording = true`, one call of `handleScreenTap` with
coordinates `(x, y)` raises `taps` by exactly 1 and appends exactly one click
effect with these coordinates behind the existing effects; `duration`,
`isRecording` and the session list stay as they are. Hence a run of `n` taps
raises `taps` by `n` and appends the `n` effects in order. -/
theorem handleScreenTap_recording (s : State) (x y : Int) (now : Nat)
    (h : s.isRecording = true) :
    (handleScreenTap x y now s).taps = s.taps + 1 ∧
      (handleScreenTap x y now s).clickEffects =
        s.clickEffects ++ [{ id := now, x := x, y := y }] ∧
      (handleScreenTap x y now s).duration = s.duration ∧
      (handleScreenTap x y now s).isRecording = s.isRecording ∧
      (handleScreenTap x y now s).sessions = s.sessions ∧
      step s (.tap x y now) = handleScreenTap x y now s ∧
      ∀ ts : List (Int × Int × Nat),
        (run s (ts.map tapEvent)).taps = s.taps + ts.length ∧
        (run s (ts.map tapEvent)).clickEffects = s.clickEffects ++ ts.map tapEffect ∧
        (ts.map tapEffect).length = ts.length ∧
        (run s (ts.map tapEvent)).duration = s.duration ∧
        (run s (ts.map tapEvent)).isRecording = s.isRecording ∧
        (run s (ts.map tapEvent)).sessions = s.sessions := by
  refine ⟨?_, ?_, ?_, ?_, ?_, step_tap_recording s x y now h, ?_⟩
  · simp [handleScreenTap, h]
  · simp [handleScreenTap, h]
  · simp [handleScreenTap, h]
  · simp [handleScreenTap, h]
  · simp [handleScreenTap, h]
  · intro ts
    have := run_taps_recording ts s h
    exact ⟨this.1, this.2.1, by simp, this.2.2.1, this.2.2.2.1, this.2.2.2.2⟩

theorem handleScreenTap_recording_witness :
    (step (initialState true) (.toggle 1780000000000 "2026-05-21")).isRecording = true ∧
    (handleScreenTap 120 340 1780000000500
      (step (initialState true) (.toggle 1780000000000 "2026-05-21"))).taps = 0 + 1 ∧
    (handleScreenTap 120 340 1780000000500
      (step (initialState true) (.toggle 1780000000000 "2026-05-21"))).clickEffects =
        [] ++ [{ id := 1780000000500, x := 120, y := 340 }] :=
  ⟨rfl,
    (handleScreenTap_recording (step (initialState true) (.toggle 1780000000000 "2026-05-21"))
      120 340 1780000000500 rfl).1,
    (handleScreenTap_recording (step (initialState true) (.toggle 1780000000000 "2026-05-21"))
      120 340 1780000000500 rfl).2.1⟩

/-- C5: while `isRecording = false`, `handleScreenTap` returns the state it was
given, whatever the coordinates: `taps`, the click effects, `duration`,
`isRecording`, the sessions, the log of haptic calls and the pending timeouts
are all unchanged, and so they are after any sequence of taps. -/
theorem handleScreenTap_idle_noop (s : State) (h : s.isRecording = false) :
    (∀ (x y : Int) (now : Nat), handleScreenTap x y now s = s) ∧
      (∀ (x y : Int) (now : Nat),
        (handleScreenTap x y now s).taps = s.taps ∧
        (handleScreenTap x y now s).clickEffects = s.clickEffects ∧
        (handleScreenTap x y now s).duration = s.duration ∧
        (handleScreenTap x y now s).isRecording = s.isRecording ∧
        (handleScreenTap x y now s).sessions = s.sessions ∧
        (handleScreenTap x y now s).haptics = s.haptics ∧
        (handleScreenTap x y now s).timeouts = s.timeouts) ∧
      (∀ (x y : Int) (now : Nat), step s (.tap x y now) = s) ∧
      ∀ ts : List (Int × Int × Nat), run s (ts.map tapEvent) = s := by
  have hid : ∀ (x y : Int) (now : Nat), handleScreenTap x y now s = s := by
    intro x y now
    simp [handleScreenTap, h]
  refine ⟨hid, ?_, ?_, ?_⟩
  · intro x y now
    rw [hid x y now]
    exact ⟨rfl, rfl, rfl, rfl, rfl, rfl, rfl⟩
  · intro x y now
    exact step_tap_idle s x y now h
  · intro ts
    induction ts with
    | nil => rfl
    | cons t ts ih =>
      simp only [List.map_cons, run_cons, tapEvent]
      rw [step_tap_idle s t.1 t.2.1 t.2.2 h]
      exact ih

theorem handleScreenTap_idle_noop_witness :
    (initialState true).isRecording = false ∧
    run (initialState true) ([(1, 2, 1780000000000), (3, 4, 1780000000100)].map tapEvent) =
      initialState true :=
  ⟨rfl, (handleScreenTap_idle_noop (initialState true) rfl).2.2.2
    [(1, 2, 1780000000000), (3, 4, 1780000000100)]⟩

/-! ## Deleting a session -/

/-- C6: `deleteSession id` keeps exactly the sessions whose id differs from
`id`, in their original order (the result is a sublist of the store, holds a
session exactly when the store holds it with another id, and holds it as many
times as the store does); every other part of the state is unchanged; when no
session has that id the store is unchanged; and deleting the id of `sessionA`
from a store `[c, sessionA, sessionB]` whose newest session has another id
gives `[c, sessionB]`. The function is total: it returns a state for every
input. -/
theorem deleteSession_removes_matching (s : State) (id : Nat) :
    (deleteSession id s).sessions = s.sessions.filter (fun x => decide (x.id ≠ id)) ∧
      (deleteSession id s).sessions.Sublist s.sessions ∧
      (∀ x, x ∈ (deleteSession id s).sessions ↔ x ∈ s.sessions ∧ x.id ≠ id) ∧
      (∀ x, x.id ≠ id → (deleteSession id s).sessions.count x = s.sessions.count x) ∧
      { deleteSession id s with sessions := s.sessions } = s ∧
      ((∀ x ∈ s.sessions, x.id ≠ id) → deleteSession id s = s) ∧
      ∀ c : Session, c.id ≠ sessionA.id →
        (deleteSession sessionA.id { s with sessions := [c, sessionA, sessionB] }).sessions =
          [c, sessionB] := by
  refine ⟨rfl, ?_, ?_, ?_, rfl, ?_, ?_⟩
  · exact List.filter_sublist _
  · intro x
    simp [deleteSession, List.mem_filter]
  · intro x hx
    simp only [deleteSession]
    rw [List.count_filter]
    simpa using hx
  · intro hall
    have : s.sessions.filter (fun x => decide (x.id ≠ id)) = s.sessions := by
      rw [List.filter_eq_self]
      intro x hx
      simpa using hall x hx
    simp only [deleteSession]
    rw [this]
  · intro c hc
    have hc1 : c.id ≠ 1 := hc
    simp [deleteSession, List.filter, hc1, sessionA, sessionB]

theorem deleteSession_removes_matching_witness :
    (∀ x ∈ (initialState true).sessions, x.id ≠ 1780000000000) ∧
    deleteSession 1780000000000 (initialState true) = initialState true ∧
    (deleteSession 1
      { initialState true with
        sessions := [{ id := 1780000000000, date := "2026.05.21", duration := 10, taps := 3,
                       type := "新工艺" }, sessionA, sessionB] }).sessions =
      [{ id := 1780000000000, date := "2026.05.21", duration := 10, taps := 3,
         type := "新工艺" }, sessionB] :=
  ⟨by simp [initialState, sessionA, sessionB],
    (deleteSession_removes_matching (initialState true) 1780000000000).2.2.2.2.2.1
      (by simp [initialState, sessionA, sessionB]),
    (deleteSession_removes_matching (initialState true) 1).2.2.2.2.2.2
      { id := 1780000000000, date := "2026.05.21", duration := 10, taps := 3, type := "新工艺" }
      (by simp [sessionA])⟩

/-! ## What a stop records -/

theorem toggleRecording_start_idle_aux (s : State) (now : Nat) (localeDate : String)
    (h : s.isRecording = false) (hd : s.duration = 0) (ht : s.taps = 0) :
    (step s (.toggle now localeDate)).isRecording = true ∧
      (step s (.toggle now localeDate)).duration = 0 ∧
      (step s (.toggle now localeDate)).taps = 0 := by
  simp [step, toggleRecording, h, hd, ht]

theorem toggleRecording_stop_aux (s : State) (now : Nat) (localeDate : String)
    (h : s.isRecording = true) :
    (step s (.toggle now localeDate)).sessions =
      { id := now, date := replaceDashes localeDate, duration := s.duration,
        taps := s.taps, type := "新工艺" } :: s.sessions := by
  simp [step, toggleRecording, h, defaultType]

theorem countTicks_cons (e : Event) (evs : List Event) :
    countTicks (e :: evs) = (if e = Event.tick then 1 else 0) + countTicks evs := by
  simp only [countTicks, List.countP_cons]
  split
  · simp_all
    omega
  · simp_all

theorem countTaps_cons (e : Event) (evs : List Event) :
    countTaps (e :: evs) =
      (match e with | .tap _ _ _ => 1 | _ => 0) + countTaps evs := by
  simp only [countTaps, List.countP_cons]
  cases e <;> simp
  omega

theorem run_segment (seg : List Event) (s : State) (hs : Inv s) (h : s.isRecording = true)
    (hseg : ∀ e ∈ seg, e.isToggle = false) :
    (run s seg).isRecording = true ∧
      (run s seg).duration = s.duration + countTicks seg ∧
      (run s seg).taps = s.taps + countTaps seg := by
  induction seg generalizing s with
  | nil => simp [run_nil, countTicks, countTaps, h]
  | cons e seg ih =>
    have hrest : ∀ e ∈ seg, e.isToggle = false := fun x hx => hseg x (List.mem_cons_of_mem _ hx)
    have he : e.isToggle = false := hseg e (List.mem_cons_self _ _)
    have hinv := inv_step s e hs
    rw [run_cons, countTicks_cons, countTaps_cons]
    cases e with
    | toggle now localeDate => simp [Event.isToggle] at he
    | tap x y now =>
      rw [step_tap_recording s x y now h] at hinv ⊢
      have hr : (handleScreenTap x y now s).isRecording = true := by simp [handleScreenTap, h]
      obtain ⟨h1, h2, h3⟩ := ih _ hinv hr hrest
      refine ⟨h1, ?_, ?_⟩
      · rw [h2]; simp [handleScreenTap, h]
      · rw [h3]; simp [handleScreenTap, h]; omega
    | tick =>
      rw [step_tick_recording s hs h] at hinv ⊢
      have hr : (tickCallback s).isRecording = true := h
      obtain ⟨h1, h2, h3⟩ := ih _ hinv hr hrest
      refine ⟨h1, ?_, ?_⟩
      · rw [h2]; simp [tickCallback]; omega
      · rw [h3]; simp [tickCallback]
    | delete id =>
      rw [step_delete] at hinv ⊢
      have hr : (deleteSession id s).isRecording = true := h
      obtain ⟨h1, h2, h3⟩ := ih _ hinv hr hrest
      refine ⟨h1, ?_, ?_⟩
      · rw [h2]; simp [deleteSession]
      · rw [h3]; simp [deleteSession]
    | expire =>
      rw [step_expire] at hinv ⊢
      have hf : (fireTimeout s).isRecording = s.isRecording ∧
          (fireTimeout s).duration = s.duration ∧ (fireTimeout s).taps = s.taps := by
        unfold fireTimeout
        split <;> simp [expireEffect]
      obtain ⟨h1, h2, h3⟩ := ih _ hinv (hf.1.trans h) hrest
      refine ⟨h1, ?_, ?_⟩
      · rw [h2, hf.2.1]; simp
      · rw [h3, hf.2.2]; simp

/-- C2: take any sequence of events `pre` from the initial state that ends idle,
then a start, then any events `seg` other than toggles (taps, ticks, deletes,
effect timeouts), then a stop. The stop puts in front of the store a session
whose `duration` is the number of ticks in `seg` and whose `taps` is the number
of taps in `seg`, whatever happened in `pre`. -/
theorem stop_records_since_start (vib : Bool) (pre seg : List Event) (n1 n2 : Nat)
    (d1 d2 : String) (hidle : (run (initialState vib) pre).isRecording = false)
    (hseg : ∀ e ∈ seg, e.isToggle = false) :
    (run (initialState vib) (pre ++ .toggle n1 d1 :: seg ++ [.toggle n2 d2])).sessions =
      { id := n2, date := replaceDashes d2, duration := countTicks seg,
        taps := countTaps seg, type := "新工艺" } ::
        (run (initialState vib) (pre ++ .toggle n1 d1 :: seg)).sessions := by
  have hpre := inv_reachable vib pre
  have hstart := toggleRecording_start_idle_aux (run (initialState vib) pre) n1 d1 hidle
    ((hpre.2 hidle).2.1) ((hpre.2 hidle).2.2)
  have hinv1 := inv_step _ (.toggle n1 d1) hpre
  obtain ⟨hr, hd, ht⟩ := run_segment seg _ hinv1 hstart.1 hseg
  rw [hstart.2.1, Nat.zero_add] at hd
  rw [hstart.2.2, Nat.zero_add] at ht
  have hstop := toggleRecording_stop_aux (run (step (run (initialState vib) pre) (.toggle n1 d1)) seg)
    n2 d2 hr
  rw [hd, ht] at hstop
  have e1 : run (initialState vib) (pre ++ .toggle n1 d1 :: seg ++ [.toggle n2 d2]) =
      step (run (step (run (initialState vib) pre) (.toggle n1 d1)) seg) (.toggle n2 d2) := by
    rw [run_append, run_append, run_cons]
    rfl
  have e2 : run (initialState vib) (pre ++ .toggle n1 d1 :: seg) =
      run (step (run (initialState vib) pre) (.toggle n1 d1)) seg := by
    rw [run_append, run_cons]
  rw [e1, e2]
  exact hstop

theorem stop_records_since_start_witness :
    (run (initialState true) []).isRecording = false ∧
    (∀ e ∈ [Event.tap 1 1 1780000001000, .tap 2 2 1780000002000, .tap 3 3 1780000003000,
        .tick, .tick, .tick, .tick, .tick, .tick, .tick, .tick, .tick, .tick],
      e.isToggle = false) ∧
    (run (initialState true)
        ([] ++ .toggle 1780000000000 "2026-05-21" ::
          [Event.tap 1 1 1780000001000, .tap 2 2 1780000002000, .tap 3 3 1780000003000,
            .tick, .tick, .tick, .tick, .tick, .tick, .tick, .tick, .tick, .tick] ++
          [.toggle 1780000010000 "2026-05-21"])).sessions =
      [{ id := 1780000010000, date := replaceDashes "2026-05-21", duration := 10, taps := 3,
         type := "新工艺" }, sessionA, sessionB] ∧
    (run (initialState true)
        ([] ++ .toggle 1780000000000 "2026-05-21" :: [] ++
          [.toggle 1780000000001 "2026-05-21"])).sessions =
      [{ id := 1780000000001, date := replaceDashes "2026-05-21", duration := 0, taps := 0,
         type := "新工艺" }, sessionA, sessionB] :=
  ⟨rfl, by simp [Event.isToggle],
    stop_records_since_start true []
      [Event.tap 1 1 1780000001000, .tap 2 2 1780000002000, .tap 3 3 1780000003000,
        .tick, .tick, .tick, .tick, .tick, .tick, .tick, .tick, .tick, .tick]
      1780000000000 1780000010000 "2026-05-21" "2026-05-21" rfl (by simp [Event.isToggle]),
    stop_records_since_start true [] [] 1780000000000 1780000000001 "2026-05-21" "2026-05-21"
      rfl (by simp)⟩

/-! ## Session identifiers -/

theorem foldl_tickCallback_sessions (l : List Nat) (s : State) :
    (l.foldl (fun acc _ => tickCallback acc) s).sessions = s.sessions := by
  induction l generalizing s with
  | nil => rfl
  | cons a l ih => simp only [List.foldl_cons]; rw [ih]; rfl

theorem sessions_step (s : State) (e : Event) :
    (step s e).sessions =
      match e with
      | .toggle now localeDate =>
        if s.isRecording then
          { id := now, date := replaceDashes localeDate, duration := s.duration,
            taps := s.taps, type := defaultType } :: s.sessions
        else s.sessions
      | .delete id => s.sessions.filter (fun x => decide (x.id ≠ id))
      | _ => s.sessions := by
  cases e with
  | toggle now localeDate =>
    cases h : s.isRecording <;> simp [step, toggleRecording, h]
  | tap x y now =>
    cases h : s.isRecording <;> simp [step, handleScreenTap, h]
  | tick => simp [step, fireIntervals, foldl_tickCallback_sessions]
  | delete id => simp [step, deleteSession]
  | expire =>
    simp only [step, commit_sessions]
    unfold fireTimeout
    split <;> rfl

theorem nodup_ids_filter (l : List Session) (p : Session → Bool)
    (h : (l.map Session.id).Nodup) : ((l.filter p).map Session.id).Nodup :=
  h.sublist ((List.filter_sublist l).map Session.id)

theorem nodup_run_of_fresh (evs : List Event) (s : State) (hn : (sessionIds s).Nodup)
    (hf : freshClocks s evs = true) : (sessionIds (run s evs)).Nodup := by
  induction evs generalizing s with
  | nil => exact hn
  | cons e evs ih =>
    simp only [freshClocks, Bool.and_eq_true] at hf
    rw [run_cons]
    apply ih _ _ hf.2
    have hstep := sessions_step s e
    unfold sessionIds at hn ⊢
    rw [hstep]
    cases e with
    | toggle now localeDate =>
      cases h : s.isRecording
      · simpa [h] using hn
      · have hfresh := hf.1
        simp [h, sessionIds] at hfresh
        simp only [h, if_true, List.map_cons, List.nodup_cons]
        refine ⟨?_, hn⟩
        simpa using hfresh
    | tap x y now => exact hn
    | tick => exact hn
    | delete id => exact nodup_ids_filter _ _ hn
    | expire => exact hn

theorem length_le_filter_succ (l : List Session) (k : Nat) (h : (l.map Session.id).Nodup) :
    l.length ≤ (l.filter (fun x => decide (x.id ≠ k))).length + 1 := by
  induction l with
  | nil => simp
  | cons x xs ih =>
    simp only [List.map_cons, List.nodup_cons] at h
    by_cases hx : x.id = k
    · have hall : xs.filter (fun y => decide (y.id ≠ k)) = xs := by
        rw [List.filter_eq_self]
        intro y hy
        have : y.id ≠ x.id := fun heq => h.1 (heq ▸ List.mem_map_of_mem Session.id hy)
        simpa [← hx] using this
      have hdrop : (x :: xs).filter (fun y => decide (y.id ≠ k)) =
          xs.filter (fun y => decide (y.id ≠ k)) :=
        List.filter_cons_of_neg (by simp [hx])
      rw [hdrop, hall]
      simp
    · have := ih h.2
      have hkeep : (x :: xs).filter (fun y => decide (y.id ≠ k)) =
          x :: xs.filter (fun y => decide (y.id ≠ k)) :=
        List.filter_cons_of_pos (by simp [hx])
      rw [hkeep]
      simp only [List.length_cons]
      omega

/-- C7, as stated, fails: with both stops reading the same clock value the
store holds two sessions with the same id, and deleting that id removes both. -/
theorem session_ids_can_collide :
    sessionIds (run (initialState true)
        [.toggle 1780000000000 "2026-05-21", .toggle 1780000000000 "2026-05-21",
         .toggle 1780000000000 "2026-05-21", .toggle 1780000000000 "2026-05-21"]) =
      [1780000000000, 1780000000000, 1, 2] ∧
    ¬ (sessionIds (run (initialState true)
        [.toggle 1780000000000 "2026-05-21", .toggle 1780000000000 "2026-05-21",
         .toggle 1780000000000 "2026-05-21", .toggle 1780000000000 "2026-05-21"])).Nodup ∧
    (deleteSession 1780000000000 (run (initialState true)
        [.toggle 1780000000000 "2026-05-21", .toggle 1780000000000 "2026-05-21",
         .toggle 1780000000000 "2026-05-21", .toggle 1780000000000 "2026-05-21"])).sessions =
      [sessionA, sessionB] := by
  have hids : sessionIds (run (initialState true)
        [.toggle 1780000000000 "2026-05-21", .toggle 1780000000000 "2026-05-21",
         .toggle 1780000000000 "2026-05-21", .toggle 1780000000000 "2026-05-21"]) =
      [1780000000000, 1780000000000, 1, 2] := rfl
  refine ⟨hids, ?_, ?_⟩
  · rw [hids]
    simp
  · rfl

/-- C7, amended: when the clock value read at each stop differs from every id
that is in the store at that moment, every state reached from the initial state
holds no two sessions with the same id, and a delete removes at most one
session. -/
theorem session_ids_unique_of_fresh (vib : Bool) (evs : List Event)
    (h : freshClocks (initialState vib) evs = true) :
    (sessionIds (run (initialState vib) evs)).Nodup ∧
      ∀ id : Nat, (run (initialState vib) evs).sessions.length ≤
        (deleteSession id (run (initialState vib) evs)).sessions.length + 1 := by
  have hn : (sessionIds (run (initialState vib) evs)).Nodup :=
    nodup_run_of_fresh evs _ (by simp [sessionIds, initialState, sessionA, sessionB]) h
  exact ⟨hn, fun id => length_le_filter_succ _ id hn⟩

theorem session_ids_unique_of_fresh_witness :
    freshClocks (initialState true)
        [.toggle 1780000000000 "2026-05-21", .toggle 1780000005000 "2026-05-21",
         .toggle 1780000006000 "2026-05-21", .delete 1,
         .toggle 1780000009000 "2026-05-21"] = true ∧
    (sessionIds (run (initialState true)
        [.toggle 1780000000000 "2026-05-21", .toggle 1780000005000 "2026-05-21",
         .toggle 1780000006000 "2026-05-21", .delete 1,
         .toggle 1780000009000 "2026-05-21"])).Nodup :=
  ⟨by decide, (session_ids_unique_of_fresh true
        [.toggle 1780000000000 "2026-05-21", .toggle 1780000005000 "2026-05-21",
         .toggle 1780000006000 "2026-05-21", .delete 1,
         .toggle 1780000009000 "2026-05-21"] (by decide)).1⟩

/-! ## Rendering a duration -/

theorem formatTime_examples :
    formatTime 0 = "00:00:00" ∧ formatTime 5400 = "01:30:00" ∧ formatTime 3599 = "00:59:59" ∧
      formatTime 359999 = "99:59:59" ∧ formatTime 360000 = "100:00:00" := by
  decide

theorem toDigitsCore_eq (n : Nat) : ∀ (fuel : Nat) (ds : List Char), n < fuel →
    Nat.toDigitsCore 10 fuel n ds = Nat.toDigitsCore 10 (n + 1) n [] ++ ds := by
  induction n using Nat.strong_induction_on with
  | _ n ih =>
    intro fuel ds hf
    obtain ⟨f, rfl⟩ : ∃ f, fuel = f + 1 := ⟨fuel - 1, by omega⟩
    simp only [Nat.toDigitsCore]
    by_cases h0 : n / 10 = 0
    · simp [h0]
    · simp only [h0, if_false]
      have hlt : n / 10 < n := by omega
      rw [ih (n / 10) hlt f _ (by omega), ih (n / 10) hlt n _ hlt]
      simp

theorem toDigits_rec (n : Nat) :
    Nat.toDigits 10 n =
      if n < 10 then [Nat.digitChar n] else Nat.toDigits 10 (n / 10) ++ [Nat.digitChar (n % 10)] := by
  unfold Nat.toDigits
  rw [Nat.toDigitsCore]
  by_cases h : n < 10
  · have h0 : n / 10 = 0 := by omega
    have h1 : n % 10 = n := by omega
    simp [h, h0, h1]
  · have h0 : n / 10 ≠ 0 := by omega
    simp only [h0, h, if_false]
    exact toDigitsCore_eq (n / 10) n _ (by omega)

theorem digitChar_spec (d : Nat) (h : d < 10) :
    (Nat.digitChar d).isDigit = true ∧ (Nat.digitChar d).toNat - '0'.toNat = d := by
  interval_cases d <;> exact ⟨rfl, rfl⟩

theorem decimalValue_append_single (xs : List Char) (c : Char) :
    decimalValue (xs ++ [c]) = 10 * decimalValue xs + (c.toNat - '0'.toNat) := by
  simp [decimalValue, List.foldl_append]

theorem decimalValue_zero_cons (xs : List Char) :
    decimalValue ('0' :: xs) = decimalValue xs := by
  simp [decimalValue]

theorem toDigits_isDigit (n : Nat) : ∀ c ∈ Nat.toDigits 10 n, c.isDigit = true := by
  induction n using Nat.strong_induction_on with
  | _ n ih =>
    intro c hc
    rw [toDigits_rec] at hc
    by_cases h : n < 10
    · simp only [h, if_true, List.mem_singleton] at hc
      rw [hc]
      exact (digitChar_spec n h).1
    · simp only [h, if_false, List.mem_append, List.mem_singleton] at hc
      rcases hc with hc | hc
      · exact ih (n / 10) (by omega) c hc
      · rw [hc]
        exact (digitChar_spec (n % 10) (by omega)).1

theorem decimalValue_toDigits (n : Nat) : decimalValue (Nat.toDigits 10 n) = n := by
  induction n using Nat.strong_induction_on with
  | _ n ih =>
    rw [toDigits_rec]
    by_cases h : n < 10
    · simp only [h, if_true]
      have := (digitChar_spec n h).2
      simp only [decimalValue, List.foldl_cons, List.foldl_nil]
      omega
    · simp only [h, if_false]
      rw [decimalValue_append_single, ih (n / 10) (by omega),
        (digitChar_spec (n % 10) (by omega)).2]
      omega

theorem toDigits_length_pos (n : Nat) : 1 ≤ (Nat.toDigits 10 n).length := by
  rw [toDigits_rec]
  split <;> simp

theorem toDigits_length_lt_two (n : Nat) : (Nat.toDigits 10 n).length < 2 ↔ n < 10 := by
  rw [toDigits_rec]
  by_cases h : n < 10
  · simp [h]
  · have := toDigits_length_pos (n / 10)
    rw [if_neg h, List.length_append, List.length_singleton]
    constructor
    · intro hlt; omega
    · intro hlt; omega

theorem toDigits_length_eq_two (n : Nat) (h : 10 ≤ n) :
    (Nat.toDigits 10 n).length = 2 ↔ n < 100 := by
  rw [toDigits_rec]
  have h10 : ¬ n < 10 := by omega
  have hp := toDigits_length_pos (n / 10)
  have hl := toDigits_length_lt_two (n / 10)
  rw [if_neg h10, List.length_append, List.length_singleton]
  constructor
  · intro hlt; omega
  · intro hlt; omega

theorem toDigits_length_one (n : Nat) (h : n < 10) : (Nat.toDigits 10 n).length = 1 := by
  have := toDigits_length_pos n
  have := (toDigits_length_lt_two n).2 h
  omega

theorem padStart2_data (n : Nat) :
    (padStart2 (toString n)).data =
      if n < 10 then '0' :: Nat.toDigits 10 n else Nat.toDigits 10 n := by
  have hdata : (toString n).data = Nat.toDigits 10 n := rfl
  have hlen : (toString n).length = (Nat.toDigits 10 n).length := rfl
  unfold padStart2
  by_cases h : n < 10
  · have h1 := toDigits_length_one n h
    have : ¬ 2 ≤ (toString n).length := by rw [hlen]; omega
    simp only [this, h, if_false, if_true, String.data_append, hdata, hlen, h1]
    rfl
  · have : 2 ≤ (toString n).length := by
      rw [hlen]
      have := toDigits_length_lt_two n
      omega
    simp only [this, h, if_true, if_false, hdata]

theorem padStart2_isDigit (n : Nat) : ∀ c ∈ (padStart2 (toString n)).data, c.isDigit = true := by
  intro c hc
  rw [padStart2_data] at hc
  split at hc
  · rcases List.mem_cons.1 hc with hc | hc
    · rw [hc]; rfl
    · exact toDigits_isDigit n c hc
  · exact toDigits_isDigit n c hc

theorem padStart2_value (n : Nat) : decimalValue (padStart2 (toString n)).data = n := by
  rw [padStart2_data]
  split
  · rw [decimalValue_zero_cons, decimalValue_toDigits]
  · exact decimalValue_toDigits n

theorem padStart2_length_ge (n : Nat) : 2 ≤ (padStart2 (toString n)).data.length := by
  rw [padStart2_data]
  split
  · have := toDigits_length_pos n
    simp only [List.length_cons]
    omega
  · have := toDigits_length_lt_two n
    omega

theorem padStart2_length_eq_two (n : Nat) :
    (padStart2 (toString n)).data.length = 2 ↔ n < 100 := by
  rw [padStart2_data]
  by_cases h : n < 10
  · have := toDigits_length_one n h
    simp only [h, if_true, List.length_cons]
    omega
  · simp only [h, if_false]
    exact toDigits_length_eq_two n (by omega)

theorem splitColon_no_colon (xs : List Char) (h : ∀ c ∈ xs, c ≠ ':') :
    splitColon xs = [xs] := by
  induction xs with
  | nil => rfl
  | cons c cs ih =>
    have hc : c ≠ ':' := h c (List.mem_cons_self _ _)
    have hcs := ih (fun d hd => h d (List.mem_cons_of_mem _ hd))
    simp [splitColon, hc, hcs]

theorem splitColon_append_colon (xs rest : List Char) (h : ∀ c ∈ xs, c ≠ ':') :
    splitColon (xs ++ ':' :: rest) = xs :: splitColon rest := by
  induction xs with
  | nil => simp [splitColon]
  | cons c cs ih =>
    have hc : c ≠ ':' := h c (List.mem_cons_self _ _)
    have hcs := ih (fun d hd => h d (List.mem_cons_of_mem _ hd))
    simp [splitColon, hc, hcs]

theorem isDigit_ne_colon (c : Char) (h : c.isDigit = true) : c ≠ ':' := by
  intro hc
  rw [hc] at h
  exact absurd h (by decide)

theorem formatTime_data (n : Nat) :
    (formatTime n).data =
      (padStart2 (toString (n / 3600))).data ++ ':' ::
        ((padStart2 (toString (n % 3600 / 60))).data ++ ':' ::
          (padStart2 (toString (n % 60))).data) := by
  simp [formatTime, String.data_append]

theorem splitColon_formatTime (n : Nat) :
    splitColon (formatTime n).data =
      [(padStart2 (toString (n / 3600))).data, (padStart2 (toString (n % 3600 / 60))).data,
        (padStart2 (toString (n % 60))).data] := by
  rw [formatTime_data,
    splitColon_append_colon _ _ (fun c hc => isDigit_ne_colon c (padStart2_isDigit _ c hc)),
    splitColon_append_colon _ _ (fun c hc => isDigit_ne_colon c (padStart2_isDigit _ c hc)),
    splitColon_no_colon _ (fun c hc => isDigit_ne_colon c (padStart2_isDigit _ c hc))]

theorem parseTime_formatTime (n : Nat) : parseTime (formatTime n) = n := by
  unfold parseTime
  rw [splitColon_formatTime]
  simp only [padStart2_value]
  omega

theorem isPaddedField_padStart2 (n : Nat) :
    isPaddedField (padStart2 (toString n)).data = true := by
  simp only [isPaddedField, Bool.and_eq_true, decide_eq_true_eq, List.all_eq_true]
  exact ⟨padStart2_length_ge n, padStart2_isDigit n⟩

theorem formatTime_length (n : Nat) :
    (formatTime n).length = (padStart2 (toString (n / 3600))).data.length + 6 := by
  have hm := (padStart2_length_eq_two (n % 3600 / 60)).2 (by omega)
  have hs := (padStart2_length_eq_two (n % 60)).2 (by omega)
  show (formatTime n).data.length = _
  rw [formatTime_data]
  simp only [List.length_append, List.length_cons, hm, hs]

/-- C10: for every number of seconds `n`, `formatTime n` cut at its colons is
exactly three fields, each made of decimal digits and at least two characters
long (zero-padded), whose values are `n / 3600`, `n % 3600 / 60` and `n % 60`,
so that `3600 * h + 60 * m + s = n` with `m < 60` and `s < 60`; the text can be
read back to `n`, hence `formatTime` is injective; and the text has exactly 8
characters if and only if `n < 360000`. -/
theorem formatTime_fields (n : Nat) :
    (∃ fh fm fs : List Char,
        splitColon (formatTime n).data = [fh, fm, fs] ∧
        isPaddedField fh = true ∧ isPaddedField fm = true ∧ isPaddedField fs = true ∧
        decimalValue fh = n / 3600 ∧ decimalValue fm = n % 3600 / 60 ∧
        decimalValue fs = n % 60 ∧
        3600 * decimalValue fh + 60 * decimalValue fm + decimalValue fs = n ∧
        decimalValue fm < 60 ∧ decimalValue fs < 60) ∧
      parseTime (formatTime n) = n ∧
      Function.Injective formatTime ∧
      ((formatTime n).length = 8 ↔ n < 360000) := by
  refine ⟨⟨_, _, _, splitColon_formatTime n, isPaddedField_padStart2 _, isPaddedField_padStart2 _,
    isPaddedField_padStart2 _, padStart2_value _, padStart2_value _, padStart2_value _, ?_, ?_, ?_⟩,
    parseTime_formatTime n, ?_, ?_⟩
  · simp only [padStart2_value]; omega
  · simp only [padStart2_value]; omega
  · simp only [padStart2_value]; omega
  · exact Function.LeftInverse.injective parseTime_formatTime
  · rw [formatTime_length]
    have := padStart2_length_eq_two (n / 3600)
    omega

end CraftsMark
